import Mathlib

set_option linter.unusedVariables false

/-! Shallow embedding of the form-validation pipeline of this repository:
    `src/js/utils/validator.js` (rule registry, messages, `validateField`,
    `validateForm`) and `src/js/components/Form.js` (`parseRuleString`,
    `handleSubmit`, `setSubmitState`).

    Modelling conventions:
    - JavaScript numbers are `ℚ` extended with `NaN` and the two infinities;
      binary64 rounding is not modelled (no claim depends on it).
    - String lengths count characters rather than UTF-16 code units.
    - A thrown `TypeError` is `Except.error ()`.
    - Field values are strings, `null`, or `undefined` (the values the
      validator receives from form controls and the claims exercise). -/

/-- The JavaScript whitespace class used by `String.prototype.trim`, the
    regex class `\s`, and the `ToNumber` coercion: space, tab, line
    terminators, NBSP, BOM and the Unicode space separators. -/
def isJsWhitespace (c : Char) : Bool :=
  c == ' ' || c == '\t' || c == '\n' || c == '\r' ||
  c.toNat == 11 || c.toNat == 12 || c.toNat == 0xa0 || c.toNat == 0xfeff ||
  c.toNat == 0x1680 || (decide (0x2000 ≤ c.toNat) && decide (c.toNat ≤ 0x200a)) ||
  c.toNat == 0x2028 || c.toNat == 0x2029 || c.toNat == 0x202f ||
  c.toNat == 0x205f || c.toNat == 0x3000

def jsTrimList (cs : List Char) : List Char :=
  ((cs.dropWhile isJsWhitespace).reverse.dropWhile isJsWhitespace).reverse

/-- `String.prototype.trim`. -/
def jsTrim (s : String) : String := String.mk (jsTrimList s.toList)

/-- A JavaScript number: `NaN`, an infinity, or a finite value. -/
inductive JSNum where
  | nan
  | posInf
  | negInf
  | fin (q : ℚ)
deriving DecidableEq

def digitsToNat (cs : List Char) : Nat :=
  cs.foldl (fun a c => a * 10 + (c.toNat - '0'.toNat)) 0

def hexDigitVal (c : Char) : Nat :=
  if c.isDigit then c.toNat - '0'.toNat
  else if decide ('a' ≤ c) && decide (c ≤ 'f') then c.toNat - 'a'.toNat + 10
  else c.toNat - 'A'.toNat + 10

def isRadixDigit (b : Nat) (c : Char) : Bool :=
  if b == 16 then
    c.isDigit || (decide ('a' ≤ c) && decide (c ≤ 'f')) || (decide ('A' ≤ c) && decide (c ≤ 'F'))
  else if b == 8 then decide ('0' ≤ c) && decide (c ≤ '7')
  else c == '0' || c == '1'

def radixToNat (b : Nat) (cs : List Char) : Nat :=
  cs.foldl (fun a c => a * b + hexDigitVal c) 0

/-- The exponent part of a decimal literal: an optional sign followed by at
    least one digit, consuming the whole remainder. -/
def parseExpPart : List Char → Option Int
  | '+' :: ds => if ds ≠ [] ∧ ds.all Char.isDigit then some (digitsToNat ds : Int) else none
  | '-' :: ds => if ds ≠ [] ∧ ds.all Char.isDigit then some (-(digitsToNat ds : Int)) else none
  | ds => if ds ≠ [] ∧ ds.all Char.isDigit then some (digitsToNat ds : Int) else none

def applyExpPart (q : ℚ) (rest : List Char) : JSNum :=
  match rest with
  | [] => .fin q
  | c :: es =>
    if c == 'e' || c == 'E' then
      match parseExpPart es with
      | some e =>
        if 0 ≤ e then .fin (mkRat (q.num * ((10 : Nat) ^ e.toNat : Nat)) q.den)
        else .fin (mkRat q.num (q.den * 10 ^ (-e).toNat))
      | none => .nan
    else .nan

/-- An unsigned decimal literal: digits, an optional fraction, an optional
    exponent ("1", "1.", ".5", "1.2e3" are all valid; "." and "x" are not). -/
def parseDecLiteral (cs : List Char) : JSNum :=
  let intD := cs.takeWhile Char.isDigit
  let r1 := cs.dropWhile Char.isDigit
  match r1 with
  | '.' :: r2 =>
    let fracD := r2.takeWhile Char.isDigit
    let r3 := r2.dropWhile Char.isDigit
    if intD = [] ∧ fracD = [] then .nan
    else applyExpPart
      (mkRat (digitsToNat intD * 10 ^ fracD.length + digitsToNat fracD) (10 ^ fracD.length)) r3
  | _ => if intD = [] then .nan else applyExpPart (digitsToNat intD : ℚ) r1

def parseUnsignedNum (cs : List Char) : JSNum :=
  if cs = "Infinity".toList then .posInf else parseDecLiteral cs

def jsNegNum : JSNum → JSNum
  | .nan => .nan
  | .posInf => .negInf
  | .negInf => .posInf
  | .fin q => .fin (-q)

def parseRadixLiteral (b : Nat) (cs : List Char) : JSNum :=
  if cs ≠ [] ∧ cs.all (isRadixDigit b) then .fin (radixToNat b cs : ℚ) else .nan

/-- The ECMAScript `ToNumber` coercion for strings (what `Number(value)`
    does to a string): trim, empty means `0`, otherwise a signed decimal
    literal, `Infinity`, or an unsigned radix-prefixed literal. -/
def jsToNumberString (s : String) : JSNum :=
  match jsTrimList s.toList with
  | [] => .fin 0
  | '+' :: rest => parseUnsignedNum rest
  | '-' :: rest => jsNegNum (parseUnsignedNum rest)
  | '0' :: 'x' :: rest => parseRadixLiteral 16 rest
  | '0' :: 'X' :: rest => parseRadixLiteral 16 rest
  | '0' :: 'o' :: rest => parseRadixLiteral 8 rest
  | '0' :: 'O' :: rest => parseRadixLiteral 8 rest
  | '0' :: 'b' :: rest => parseRadixLiteral 2 rest
  | '0' :: 'B' :: rest => parseRadixLiteral 2 rest
  | cs => parseUnsignedNum cs

/-- JavaScript `>=` on numbers: `false` whenever either side is `NaN`. -/
def jsGE : JSNum → JSNum → Bool
  | .nan, _ => false
  | _, .nan => false
  | .posInf, _ => true
  | _, .posInf => false
  | _, .negInf => true
  | .negInf, _ => false
  | .fin a, .fin b => decide (b ≤ a)

/-- JavaScript `<=` on numbers. -/
def jsLE (a b : JSNum) : Bool := jsGE b a

/-- Decimal rendering of a rational, used for `${param}` interpolation in
    message templates. Values whose decimal expansion does not terminate
    within 20 digits fall back to the raw rational rendering; binary64
    shortest-round-trip formatting is not modelled. -/
def ratDecimalString (q : ℚ) : String :=
  if q.den == 1 then toString q.num
  else
    match (List.range 21).find? (fun k => (10 : Nat) ^ k % q.den == 0) with
    | some k =>
      let n := q.num * ((10 ^ k / q.den : Nat) : Int)
      let sign := if n < 0 then "-" else ""
      let digits := toString n.natAbs
      let padded :=
        if digits.length ≤ k then String.mk (List.replicate (k + 1 - digits.length) '0') ++ digits
        else digits
      sign ++ String.mk (padded.toList.take (padded.length - k)) ++ "." ++
        String.mk (padded.toList.drop (padded.length - k))
    | none => toString q

/-- JavaScript number-to-string coercion. -/
def jsNumToString : JSNum → String
  | .nan => "NaN"
  | .posInf => "Infinity"
  | .negInf => "-Infinity"
  | .fin q => ratDecimalString q

/-- A JavaScript value as it reaches the validator. -/
inductive JSValue where
  | str (s : String)
  | null
  | undefined
deriving DecidableEq

/-- JavaScript string coercion (as applied by `RegExp.prototype.test`). -/
def jsToString : JSValue → String
  | .str s => s
  | .null => "null"
  | .undefined => "undefined"

/-- `Number(value)` on the embedded value grammar. -/
def jsNumber : JSValue → JSNum
  | .str s => jsToNumberString s
  | .null => .fin 0
  | .undefined => .nan

def jsTruthy : JSValue → Bool
  | .str s => s != ""
  | .null => false
  | .undefined => false

/-- JavaScript strict equality `===` on the embedded value grammar. -/
def jsStrictEq : JSValue → JSValue → Bool
  | .str a, .str b => a == b
  | .null, .null => true
  | .undefined, .undefined => true
  | _, _ => false

/-- A form snapshot: an insertion-ordered mapping from field name to value. -/
abbrev Snapshot := List (String × JSValue)

/-- Property read `formData[key]`: a missing key yields `undefined`. -/
def snapGet (fd : Snapshot) (key : String) : JSValue :=
  match fd.lookup key with
  | some v => v
  | none => .undefined

/-- A parsed rule parameter: `Number(p)` when that is not `NaN`, else the raw
    token string. -/
inductive JSParam where
  | str (s : String)
  | num (n : JSNum)
deriving DecidableEq

/-- A rule as consumed by `validateField`: either a bare name token or an
    object `{rule, params, message}` (the parser emits objects without a
    `message`; callers may attach an override message). -/
inductive RuleSpec where
  | str (name : String)
  | obj (rule : String) (params : List JSParam) (message : Option String)
deriving DecidableEq

/-- JavaScript `String.prototype.split` on a single-character separator,
    on the character list (`"".split(c)` is `[""]`). -/
def splitCh (sep : Char) : List Char → List (List Char)
  | [] => [[]]
  | c :: cs =>
    match splitCh sep cs with
    | [] => [[]]
    | h :: t => if c = sep then [] :: h :: t else (c :: h) :: t

def jsSplit (s : String) (sep : Char) : List String :=
  (splitCh sep s.toList).map String.mk

/-- `String.prototype.includes` for a single character. -/
def jsIncludes (s : String) (c : Char) : Bool := s.toList.contains c

/-- `const num = Number(p); return isNaN(num) ? p : num`. -/
def coerceParam (p : String) : JSParam :=
  match jsToNumberString p with
  | .nan => .str p
  | n => .num n

/-- One `|`-separated token of a rule string: `name:p1,p2` becomes an object
    spec; the destructuring `[ruleName, params] = rule.split(':')` keeps only
    the first two segments. A token without `:` stays a bare string. -/
def parseRuleToken (rule : String) : RuleSpec :=
  if jsIncludes rule ':' then
    match jsSplit rule ':' with
    | ruleName :: params :: _ => .obj ruleName ((jsSplit params ',').map coerceParam) none
    | _ => .str rule   -- unreachable: a token containing a colon splits into at least two pieces
  else .str rule

/-- `Form.parseRuleString`. -/
def parseRuleString (ruleString : String) : List RuleSpec :=
  (jsSplit ruleString '|').map parseRuleToken

/-- A registry entry: zero-parameter rules are direct predicates; a
    parameterized rule name maps to a factory from the declared parameters to
    the actual `(value, formData)` predicate. `Except.error ()` models a
    thrown `TypeError`. -/
inductive RuleEntry where
  | pred (f : JSValue → Snapshot → Except Unit Bool)
  | factory (f : List JSParam → JSValue → Snapshot → Except Unit Bool)

/-- `ToNumber` of the first declared parameter, as JavaScript's relational
    operators coerce it (an absent parameter is `undefined`, hence `NaN`). -/
def paramNum (ps : List JSParam) : JSNum :=
  match ps.head? with
  | some (.num n) => n
  | some (.str s) => jsToNumberString s
  | none => .nan

/-- String coercion of the first declared parameter (`${param}` and property
    keys). -/
def paramKey (ps : List JSParam) : String :=
  match ps.head? with
  | some (.str s) => s
  | some (.num n) => jsNumToString n
  | none => "undefined"

def requiredRule (v : JSValue) (fd : Snapshot) : Except Unit Bool :=
  .ok (match v with
    | .str s => jsTrim s != ""
    | .null => false
    | .undefined => false)

def emailChar (c : Char) : Bool := !(isJsWhitespace c) && c != '@'

/-- The test of the literal regex in the source:
    one or more non-space-non-at characters, `@`, then the same class with a
    dot that has at least one class character on each side. -/
def emailTest (s : String) : Bool :=
  match splitCh '@' s.toList with
  | [l, d] => l != [] && l.all emailChar && d.all emailChar && (d.drop 1).dropLast.contains '.'
  | _ => false

def emailRule (v : JSValue) (fd : Snapshot) : Except Unit Bool :=
  .ok (emailTest (jsToString v))

def minLengthRule (ps : List JSParam) (v : JSValue) (fd : Snapshot) : Except Unit Bool :=
  .ok (match v with
    | .str s => jsGE (.fin (s.length : ℚ)) (paramNum ps)
    | _ => false)

def maxLengthRule (ps : List JSParam) (v : JSValue) (fd : Snapshot) : Except Unit Bool :=
  .ok (match v with
    | .str s => jsLE (.fin (s.length : ℚ)) (paramNum ps)
    | _ => false)

/-- `!isNaN(num) && num >= minValue` where `num = Number(value)`. -/
def minRulePasses (ps : List JSParam) (v : JSValue) : Bool :=
  match jsNumber v with
  | .nan => false
  | n => jsGE n (paramNum ps)

def minRule (ps : List JSParam) (v : JSValue) (fd : Snapshot) : Except Unit Bool :=
  .ok (minRulePasses ps v)

/-- `!isNaN(num) && num <= maxValue` where `num = Number(value)`. -/
def maxRulePasses (ps : List JSParam) (v : JSValue) : Bool :=
  match jsNumber v with
  | .nan => false
  | n => jsLE n (paramNum ps)

def maxRule (ps : List JSParam) (v : JSValue) (fd : Snapshot) : Except Unit Bool :=
  .ok (maxRulePasses ps v)

/-- `pattern` expects a `RegExp` object, but a parsed parameter is a string
    or a number; calling `.test` on either throws a `TypeError`. -/
def patternRule (ps : List JSParam) (v : JSValue) (fd : Snapshot) : Except Unit Bool :=
  .error ()

def urlSchemeChar (c : Char) : Bool := c.isAlpha || c.isDigit || c == '+' || c == '-' || c == '.'

/-- Approximates `new URL(value)` succeeding: an ASCII-alpha-initial scheme
    followed by `:`; the special schemes additionally require `//` and a
    nonempty host. -/
def urlTest (s : String) : Bool :=
  let cs := (s.toList.dropWhile (fun c => decide (c.toNat ≤ 32))).reverse.dropWhile
    (fun c => decide (c.toNat ≤ 32)) |>.reverse
  match cs with
  | c :: _ =>
    c.isAlpha &&
    (let scheme := (cs.takeWhile urlSchemeChar).map Char.toLower
     match cs.dropWhile urlSchemeChar with
     | ':' :: rest =>
       if scheme = "http".toList ∨ scheme = "https".toList ∨ scheme = "ws".toList ∨
          scheme = "wss".toList ∨ scheme = "ftp".toList then
         match rest with
         | '/' :: '/' :: hostRest =>
           (hostRest.takeWhile (fun c => c != '/' && c != '?' && c != '#')) != []
         | _ => false
       else true
     | _ => false)
  | [] => false

def urlRule (v : JSValue) (fd : Snapshot) : Except Unit Bool :=
  .ok (urlTest (jsToString v))

/-- `/^[\+]?[1-9][\d]{0,15}$/` on the stripped character list. -/
def phoneTest (cs : List Char) : Bool :=
  let cs2 := match cs with
    | '+' :: r => r
    | r => r
  match cs2 with
  | [] => false
  | c :: rest =>
    decide ('1' ≤ c) && decide (c ≤ '9') && rest.all Char.isDigit && decide (rest.length ≤ 15)

def phoneRule (v : JSValue) (fd : Snapshot) : Except Unit Bool :=
  match v with
  | .str s =>
    .ok (phoneTest (s.toList.filter (fun c => !(isJsWhitespace c || c == '-' || c == '(' || c == ')'))))
  | _ => .error ()   -- `value.replace` throws on null and undefined

def numberRule (v : JSValue) (fd : Snapshot) : Except Unit Bool :=
  match jsNumber v with
  | .nan => .ok false   -- `!isNaN(...)` short-circuits before `value.trim()`
  | _ =>
    match v with
    | .str s => .ok (jsTrim s != "")
    | _ => .error ()   -- `null.trim()` throws (`Number(null)` is 0, not NaN)

def integerRule (v : JSValue) (fd : Snapshot) : Except Unit Bool :=
  .ok (match jsNumber v with
    | .fin q => q.den == 1
    | _ => false)

def alphaRule (v : JSValue) (fd : Snapshot) : Except Unit Bool :=
  .ok (let cs := (jsToString v).toList
       cs != [] && cs.all Char.isAlpha)

def alphanumericRule (v : JSValue) (fd : Snapshot) : Except Unit Bool :=
  .ok (let cs := (jsToString v).toList
       cs != [] && cs.all Char.isAlphanum)

def matchRule (ps : List JSParam) (v : JSValue) (fd : Snapshot) : Except Unit Bool :=
  .ok (jsStrictEq v (snapGet fd (paramKey ps)))

/-- The `validator.rules` lookup table. -/
def rulesReg : String → Option RuleEntry
  | "required" => some (.pred requiredRule)
  | "email" => some (.pred emailRule)
  | "minLength" => some (.factory minLengthRule)
  | "maxLength" => some (.factory maxLengthRule)
  | "min" => some (.factory minRule)
  | "max" => some (.factory maxRule)
  | "pattern" => some (.factory patternRule)
  | "url" => some (.pred urlRule)
  | "phone" => some (.pred phoneRule)
  | "number" => some (.pred numberRule)
  | "integer" => some (.pred integerRule)
  | "alpha" => some (.pred alphaRule)
  | "alphanumeric" => some (.pred alphanumericRule)
  | "match" => some (.factory matchRule)
  | _ => none

/-- A message entry: a literal string or a function of the declared
    parameters. -/
inductive MsgEntry where
  | msg (s : String)
  | msgFn (f : List JSParam → String)

/-- The `validator.messages` lookup table. -/
def msgReg : String → Option MsgEntry
  | "required" => some (.msg "This field is required")
  | "email" => some (.msg "Please enter a valid email address")
  | "minLength" => some (.msgFn (fun ps => "Must be at least " ++ paramKey ps ++ " characters"))
  | "maxLength" => some (.msgFn (fun ps => "Must not exceed " ++ paramKey ps ++ " characters"))
  | "min" => some (.msgFn (fun ps => "Must be at least " ++ paramKey ps))
  | "max" => some (.msgFn (fun ps => "Must not exceed " ++ paramKey ps))
  | "pattern" => some (.msg "Please enter a valid format")
  | "url" => some (.msg "Please enter a valid URL")
  | "phone" => some (.msg "Please enter a valid phone number")
  | "number" => some (.msg "Please enter a valid number")
  | "integer" => some (.msg "Please enter a whole number")
  | "alpha" => some (.msg "Only letters are allowed")
  | "alphanumeric" => some (.msg "Only letters and numbers are allowed")
  | "match" => some (.msgFn (fun ps => "Must match " ++ paramKey ps))
  | _ => none


/-- Calling a registry entry directly with `(value, formData)` — the string
    dispatch path, and the object path with no parameters. Calling a factory
    this way returns a closure, which is truthy, so such a rule can never
    fail. -/
def applyEntryDirect (e : RuleEntry) (v : JSValue) (fd : Snapshot) : Except Unit Bool :=
  match e with
  | .pred f => f v fd
  | .factory f => .ok true

/-- The registry message resolved for a rule name: a message function is
    applied to the declared parameters. -/
def registryMessage (name : String) (ps : List JSParam) : String :=
  match msgReg name with
  | some (.msg s) => s
  | some (.msgFn f) => f ps
  | none => ""   -- unreachable: reached only after a successful rules lookup

/-- `errorMessage = this.messages[rule]` on the bare-string dispatch path.
    In this registry every directly-callable rule has a literal message, and
    factory entries never fail on this path, so applying a message function
    to no parameters is unreachable. -/
def msgString (name : String) : String := registryMessage name []

/-- `customMessage || (...)`: an absent or empty override is falsy and falls
    back to the registry message. -/
def resolveMessage (name : String) (ps : List JSParam) (m : Option String) : String :=
  match m with
  | some msg => if msg != "" then msg else registryMessage name ps
  | none => registryMessage name ps

/-- Applying a registry entry through declared parameters:
    `this.rules[name](...params)` hands a factory its parameters and yields
    the actual predicate; on a non-factory entry the call evaluates the
    predicate on the parameters, the result is not a function, and calling it
    with `(value, formData)` throws. -/
def applyEntryParams (e : RuleEntry) (ps : List JSParam) (v : JSValue) (fd : Snapshot) :
    Except Unit Bool :=
  match e with
  | .factory f => f ps v fd
  | .pred f => .error ()

/-- One iteration of the `validateField` loop: the `(isValid, errorMessage)`
    pair the loop body computes for one rule, or a thrown `TypeError`. -/
def runRule (v : JSValue) (fd : Snapshot) : RuleSpec → Except Unit (Bool × String)
  | .str rule =>
    match rulesReg rule with
    | none => .error ()   -- `this.rules[rule]` is undefined; calling it throws
    | some e =>
      match applyEntryDirect e v fd with
      | .error u => .error u
      | .ok b => .ok (b, msgString rule)
  | .obj ruleName ruleParams customMessage =>
    match rulesReg ruleName with
    | none => .ok (true, "")   -- `if (this.rules[ruleName])` guard: the rule is skipped
    | some e =>
      match (if ruleParams.length > 0 then applyEntryParams e ruleParams v fd
             else applyEntryDirect e v fd) with
      | .error u => .error u
      | .ok b => .ok (b, resolveMessage ruleName ruleParams customMessage)

structure FieldResult where
  isValid : Bool
  errors : List String
deriving DecidableEq

def validateFieldGo (v : JSValue) (fd : Snapshot) : List RuleSpec → List String → Except Unit (List String)
  | [], errors => .ok errors
  | r :: rest, errors =>
    match runRule v fd r with
    | .error u => .error u
    | .ok p => validateFieldGo v fd rest (if !p.1 then errors ++ [p.2] else errors)

/-- `validator.validateField(value, rules, formData)`. -/
def validateField (value : JSValue) (rs : List RuleSpec) (formData : Snapshot) : Except Unit FieldResult :=
  match validateFieldGo value formData rs [] with
  | .error u => .error u
  | .ok errors => .ok { isValid := errors.length == 0, errors := errors }

/-- Whether a RuleSpec matches, following the registry dispatch (an unknown
    object-form rule neither matches nor fails; an unknown bare-string rule
    throws). -/
def rulePasses (v : JSValue) (fd : Snapshot) : RuleSpec → Except Unit Bool
  | .str name =>
    match rulesReg name with
    | none => .error ()
    | some e => applyEntryDirect e v fd
  | .obj name ps m =>
    match rulesReg name with
    | none => .ok true
    | some e =>
      if ps.length > 0 then applyEntryParams e ps v fd
      else applyEntryDirect e v fd

/-- The message a failing RuleSpec resolves to: its non-empty override if it
    carries one, else the registry message (a parametric message applied to
    the declared parameters). -/
def resolvedMessage : RuleSpec → String
  | .str name => msgString name
  | .obj name ps m => resolveMessage name ps m

/-- The outcomes of the rules in declared order: `none` for a passing rule,
    `some` of its resolved message for a failing one; the first thrown error
    propagates. -/
def ruleOutcomes (v : JSValue) (fd : Snapshot) : List RuleSpec → Except Unit (List (Option String))
  | [] => .ok []
  | r :: rest =>
    match (rulePasses v fd r).map (fun p => if p then none else some (resolvedMessage r)) with
    | .error u => .error u
    | .ok o =>
      match ruleOutcomes v fd rest with
      | .error u => .error u
      | .ok os => .ok (o :: os)

/-- Declarative field validation, following the specified contract: each rule
    is evaluated in declared order, every failing rule contributes exactly its
    resolved message, all failures are collected, and `isValid` is
    `errors.length === 0`. -/
def validateFieldSpec (v : JSValue) (rs : List RuleSpec) (fd : Snapshot) : Except Unit FieldResult :=
  match ruleOutcomes v fd rs with
  | .error u => .error u
  | .ok outs => .ok { isValid := outs.reduceOption.length == 0, errors := outs.reduceOption }

structure FormResult where
  isValid : Bool
  errors : List (String × List String)
  results : List (String × FieldResult)
deriving DecidableEq

/-- `formData[fieldName] || ''`. -/
def jsOrEmpty (v : JSValue) : JSValue := if jsTruthy v then v else .str ""

def validateFormGo (fd : Snapshot) :
    List (String × List RuleSpec) → Bool → List (String × List String) →
    List (String × FieldResult) → Except Unit FormResult
  | [], isValid, errors, results => .ok { isValid := isValid, errors := errors, results := results }
  | (fieldName, fieldRules) :: rest, isValid, errors, results =>
    match validateField (jsOrEmpty (snapGet fd fieldName)) fieldRules fd with
    | .error u => .error u
    | .ok result =>
      if !result.isValid then
        validateFormGo fd rest false (errors ++ [(fieldName, result.errors)])
          (results ++ [(fieldName, result)])
      else
        validateFormGo fd rest isValid errors (results ++ [(fieldName, result)])

/-- `validator.validateForm(formData, validationRules)`; the rules map is the
    insertion-ordered association list of per-field rule lists. -/
def validateForm (formData : Snapshot) (validationRules : List (String × List RuleSpec)) :
    Except Unit FormResult :=
  validateFormGo formData validationRules true [] []

/-- The submit control as `setSubmitState` sees it: `disabled`,
    `textContent`, `dataset.originalText`, and the two busy classes. -/
structure ButtonState where
  disabled : Bool
  textContent : String
  originalText : Option String
  busyClasses : Bool
deriving DecidableEq

/-- `setSubmitState(isSubmitting)`; `none` models a form without a
    `[type="submit"]` control. Restoring the label is guarded by the
    truthiness of `dataset.originalText`, so an empty saved label is never
    written back. -/
def setSubmitState (b : Option ButtonState) (isSubmitting : Bool) : Option ButtonState :=
  match b with
  | none => none
  | some btn =>
    if isSubmitting then
      some { disabled := true, textContent := "Submitting...",
             originalText := some btn.textContent, busyClasses := true }
    else
      some { disabled := false, busyClasses := false, originalText := btn.originalText,
             textContent := match btn.originalText with
               | some t => if t != "" then t else btn.textContent
               | none => btn.textContent }

structure FormCtrl where
  isSubmitting : Bool
  button : Option ButtonState
deriving DecidableEq

structure SubmitOutcome where
  state : FormCtrl
  validations : Nat
  submitEmits : Nat
  errorEmits : Nat
deriving DecidableEq

/-- `Form.handleSubmit()`. `valid` is the verdict `validateForm` will
    report, `throws` whether the try-block raises, and `reenter` whether a
    listener of the synchronously dispatched `form:submit` event triggers a
    nested submit while the first is still in flight. `validations` counts
    `validateForm` runs, `submitEmits` dispatches of `form:submit`,
    `errorEmits` dispatches of `form:error`. The fuel bounds nesting depth;
    a nested attempt hits the `isSubmitting` guard, so exhaustion is
    unreachable from a top-level call with positive fuel. -/
def handleSubmit : Nat → FormCtrl → Bool → Bool → Bool → SubmitOutcome
  | 0, s, valid, throws, reenter => ⟨s, 0, 0, 0⟩
  | fuel+1, s, valid, throws, reenter =>
    if s.isSubmitting then ⟨s, 0, 0, 0⟩
    else if !valid then ⟨s, 1, 0, 0⟩
    else
      let s1 : FormCtrl := ⟨true, setSubmitState s.button true⟩
      if throws then
        ⟨⟨false, setSubmitState s1.button false⟩, 1, 0, 1⟩
      else
        let nested := if reenter then handleSubmit fuel s1 valid throws reenter else ⟨s1, 0, 0, 0⟩
        ⟨⟨false, setSubmitState nested.state.button false⟩,
          1 + nested.validations, 1 + nested.submitEmits, nested.errorEmits⟩

/-- The submit affordance is back in its idle state relative to a
    pre-submission button: enabled, busy classes removed, and the label
    restored whenever the pre-submission label was non-empty. -/
def buttonRestored : Option ButtonState → Option ButtonState → Prop
  | none, b2 => b2 = none
  | some btn, b2 =>
    ∃ btn2, b2 = some btn2 ∧ btn2.disabled = false ∧ btn2.busyClasses = false ∧
      (btn.textContent ≠ "" → btn2.textContent = btn.textContent)

/-! ### Helper lemmas -/

lemma splitCh_ne_nil (sep : Char) (cs : List Char) : splitCh sep cs ≠ [] := by
  induction cs with
  | nil => simp [splitCh]
  | cons c cs ih =>
    unfold splitCh
    cases h : splitCh sep cs with
    | nil => exact absurd h ih
    | cons a t => by_cases hc : c = sep <;> simp [hc]

lemma splitCh_append_sep (sep : Char) (a rest : List Char) (h : sep ∉ a) :
    splitCh sep (a ++ sep :: rest) = a :: splitCh sep rest := by
  induction a with
  | nil =>
    simp only [List.nil_append]
    conv_lhs => unfold splitCh
    cases hr : splitCh sep rest with
    | nil => exact absurd hr (splitCh_ne_nil sep rest)
    | cons x t => simp
  | cons c cs ih =>
    have hc : c ≠ sep := fun hh => h (hh ▸ List.mem_cons_self c cs)
    have hcs : sep ∉ cs := fun hh => h (List.mem_cons_of_mem c hh)
    simp only [List.cons_append]
    conv_lhs => unfold splitCh
    rw [ih hcs]
    simp [hc]

lemma dropWhile_eq_nil_of_all {p : Char → Bool} (cs : List Char) (h : cs.all p = true) :
    cs.dropWhile p = [] := by
  induction cs with
  | nil => rfl
  | cons c cs ih =>
    simp only [List.all_cons, Bool.and_eq_true] at h
    simp [List.dropWhile_cons, h.1, ih h.2]

lemma jsTrimList_eq_nil_of_all (cs : List Char) (h : cs.all isJsWhitespace = true) :
    jsTrimList cs = [] := by
  unfold jsTrimList
  rw [dropWhile_eq_nil_of_all cs h]
  simp

lemma handleSubmit_of_submitting (fuel : Nat) (s : FormCtrl) (valid throws reenter : Bool)
    (h : s.isSubmitting = true) : handleSubmit fuel s valid throws reenter = ⟨s, 0, 0, 0⟩ := by
  cases fuel with
  | zero => rfl
  | succ f => simp [handleSubmit, h]

/-! ### Claims -/

/-- C6. Rule-string parsing is pure, deterministic and total: re-parsing the
    same string yields the identical RuleSpec sequence; every `|`-token maps
    to exactly one RuleSpec (the parser is a total function and never
    throws); a token with no colon — in particular a rule name unknown to the
    registry — is preserved structurally as a bare string; a parameter token
    is coerced to a number exactly when `Number` does not yield `NaN`, else
    kept as a string. -/
theorem c6_parse_pure_total_coercion (s : String) :
    parseRuleString s = parseRuleString s
  ∧ parseRuleString s = (jsSplit s '|').map parseRuleToken
  ∧ (∀ t : String, t ∈ jsSplit s '|' → jsIncludes t ':' = false →
      RuleSpec.str t ∈ parseRuleString s)
  ∧ (∀ t : String,
      (jsToNumberString t = .nan → coerceParam t = .str t) ∧
      (jsToNumberString t ≠ .nan → coerceParam t = .num (jsToNumberString t))) := by
  refine ⟨rfl, rfl, ?_, ?_⟩
  · intro t ht hinc
    have : parseRuleToken t = .str t := by
      unfold parseRuleToken
      simp [hinc]
    rw [show parseRuleString s = (jsSplit s '|').map parseRuleToken from rfl]
    exact this ▸ List.mem_map_of_mem parseRuleToken ht
  · intro t
    constructor
    · intro hn
      unfold coerceParam
      rw [hn]
    · intro hn
      unfold coerceParam
      cases h : jsToNumberString t with
      | nan => exact absurd h hn
      | posInf => rfl
      | negInf => rfl
      | fin q => rfl

/-- C6 witness: a concrete rule string exercising the three clauses. -/
theorem c6_parse_witness :
    RuleSpec.str "bogus" ∈ parseRuleString "required|min:5|bogus"
  ∧ coerceParam "5" = .num (.fin 5)
  ∧ coerceParam "a" = .str "a" := by
  refine ⟨?_, ?_, ?_⟩
  · exact (c6_parse_pure_total_coercion "required|min:5|bogus").2.2.1 "bogus" (by decide) (by decide)
  · exact ((c6_parse_pure_total_coercion "required|min:5|bogus").2.2.2 "5").2 (by decide)
  · exact ((c6_parse_pure_total_coercion "required|min:5|bogus").2.2.2 "a").1 (by decide)

/-- C10. A rule token with two or more colons keeps only the text between
    the first and the second colon as the parameter segment — everything
    after the second colon is silently discarded — because the destructuring
    `[ruleName, params] = rule.split(':')` reads only the first two
    segments. -/
theorem c10_extra_colons_discarded (name mid rest : String)
    (h1 : ':' ∉ name.toList) (h2 : ':' ∉ mid.toList) :
    parseRuleToken (String.mk (name.toList ++ ':' :: (mid.toList ++ ':' :: rest.toList))) =
      .obj name ((jsSplit mid ',').map coerceParam) none := by
  have hsplit : splitCh ':' (name.toList ++ ':' :: (mid.toList ++ ':' :: rest.toList)) =
      name.toList :: mid.toList :: splitCh ':' rest.toList := by
    rw [splitCh_append_sep ':' name.toList _ h1, splitCh_append_sep ':' mid.toList _ h2]
  have hmem : ':' ∈ name.toList ++ ':' :: (mid.toList ++ ':' :: rest.toList) :=
    List.mem_append_right _ (List.mem_cons_self _ _)
  have hinc : jsIncludes (String.mk (name.toList ++ ':' :: (mid.toList ++ ':' :: rest.toList))) ':' = true := by
    unfold jsIncludes
    exact List.elem_iff.mpr hmem
  unfold parseRuleToken
  rw [hinc]
  simp only [if_true, jsSplit]
  rw [show (String.mk (name.toList ++ ':' :: (mid.toList ++ ':' :: rest.toList))).toList =
      name.toList ++ ':' :: (mid.toList ++ ':' :: rest.toList) from rfl]
  rw [hsplit]
  simp only [List.map_cons]
  rfl

/-- C10 witness: `pattern:a:b` keeps only `a` as the parameter segment. -/
theorem c10_extra_colons_witness :
    parseRuleToken (String.mk ("pattern".toList ++ ':' :: ("a".toList ++ ':' :: "b".toList))) =
      .obj "pattern" [.str "a"] none ∧
    String.mk ("pattern".toList ++ ':' :: ("a".toList ++ ':' :: "b".toList)) = "pattern:a:b" := by
  constructor
  · exact c10_extra_colons_discarded "pattern" "a" "b" (by decide) (by decide)
  · rfl

/-- C8. The `required` rule fails for every value that is empty,
    whitespace-only, `null`, or `undefined`: `validateField` returns
    `isValid = false` with the `required` message. -/
theorem c8_required_rejects_blank (v : JSValue)
    (h : v = .null ∨ v = .undefined ∨ ∃ s, v = .str s ∧ s.toList.all isJsWhitespace = true) :
    validateField v [.str "required"] [] = .ok ⟨false, ["This field is required"]⟩ := by
  rcases h with h | h | ⟨s, rfl, hws⟩
  · rw [h]; rfl
  · rw [h]; rfl
  · have htrim : jsTrim s = "" := by
      unfold jsTrim
      rw [jsTrimList_eq_nil_of_all s.toList hws]
    have hreq : requiredRule (.str s) [] = .ok false := by
      simp [requiredRule, htrim]
    have hrun : runRule (.str s) [] (.str "required") = .ok (false, "This field is required") := by
      simp only [runRule, show rulesReg "required" = some (.pred requiredRule) from rfl,
        applyEntryDirect, hreq]
      rfl
    simp [validateField, validateFieldGo, hrun]

/-- C8 witness: the empty string and a whitespace-only string. -/
theorem c8_required_witness :
    validateField (.str "") [.str "required"] [] = .ok ⟨false, ["This field is required"]⟩
  ∧ validateField (.str " \t ") [.str "required"] [] = .ok ⟨false, ["This field is required"]⟩
  ∧ validateField .null [.str "required"] [] = .ok ⟨false, ["This field is required"]⟩ := by
  refine ⟨?_, ?_, ?_⟩
  · exact c8_required_rejects_blank (.str "") (.inr (.inr ⟨"", rfl, by decide⟩))
  · exact c8_required_rejects_blank (.str " \t ") (.inr (.inr ⟨" \t ", rfl, by decide⟩))
  · exact c8_required_rejects_blank .null (.inl rfl)

/-- C9. The `integer` rule accepts the empty string, because `Number("")`
    is `0`, which has no fractional part; likewise the empty string passes
    `min:n` for every `n ≤ 0`. -/
theorem c9_integer_accepts_empty (q : ℚ) (hq : q ≤ 0) :
    validateField (.str "") [.str "integer"] [] = .ok ⟨true, []⟩
  ∧ jsToNumberString "" = .fin 0
  ∧ validateField (.str "") [.obj "min" [.num (.fin q)] none] [] = .ok ⟨true, []⟩ := by
  refine ⟨rfl, rfl, ?_⟩
  have hge : jsGE (.fin 0) (.fin q) = true := by
    simp [jsGE, hq]
  have hmin : minRule [.num (.fin q)] (.str "") [] = .ok true := by
    simp only [minRule, minRulePasses, jsNumber, show jsToNumberString "" = .fin 0 from rfl,
      paramNum, List.head?, hge]
  have hrun : runRule (.str "") [] (.obj "min" [.num (.fin q)] none) =
      .ok (true, resolveMessage "min" [.num (.fin q)] none) := by
    simp only [runRule, show rulesReg "min" = some (.factory minRule) from rfl]
    simp [applyEntryParams, hmin]
  simp [validateField, validateFieldGo, hrun]

/-- C9 witness: instantiated at `n = 0`. -/
theorem c9_integer_witness :
    validateField (.str "") [.str "integer"] [] = .ok ⟨true, []⟩
  ∧ validateField (.str "") [.obj "min" [.num (.fin 0)] none] [] = .ok ⟨true, []⟩ := by
  have h := c9_integer_accepts_empty 0 (by decide)
  exact ⟨h.1, h.2.2⟩

lemma validateField_single (v : JSValue) (fd : Snapshot) (r : RuleSpec) (b : Bool) (m : String)
    (h : runRule v fd r = .ok (b, m)) :
    validateField v [r] fd = .ok (if b then ⟨true, []⟩ else ⟨false, [m]⟩) := by
  cases b <;> simp [validateField, validateFieldGo, h]

lemma validateFieldGo_append (v : JSValue) (fd : Snapshot) (xs ys : List RuleSpec)
    (acc : List String) :
    validateFieldGo v fd (xs ++ ys) acc =
      match validateFieldGo v fd xs acc with
      | .error u => .error u
      | .ok acc2 => validateFieldGo v fd ys acc2 := by
  induction xs generalizing acc with
  | nil => simp [validateFieldGo]
  | cons x xs ih =>
    simp only [List.cons_append, validateFieldGo]
    cases hx : runRule v fd x with
    | error u => rfl
    | ok p => exact ih _

/-- C7. The `min` and `max` rules coerce the value with a standard numeric
    parse and never throw (for any value, parameter list and snapshot they
    return a result); a value whose numeric coercion is `NaN` fails the rule
    with its resolved message; `"5"` against `min:10` is invalid and `"15"`
    against `min:10` is valid. -/
theorem c7_min_max_numeric_coercion (v : JSValue) (ps : List JSParam) (fd : Snapshot)
    (m : Option String) (s : String) (p : JSParam) (hn : jsToNumberString s = .nan) :
    (∃ r, validateField v [.obj "min" ps m] fd = .ok r)
  ∧ (∃ r, validateField v [.obj "max" ps m] fd = .ok r)
  ∧ validateField (.str s) [.obj "min" [p] none] fd =
      .ok ⟨false, [resolveMessage "min" [p] none]⟩
  ∧ validateField (.str s) [.obj "max" [p] none] fd =
      .ok ⟨false, [resolveMessage "max" [p] none]⟩
  ∧ validateField (.str "5") [.obj "min" [.num (.fin 10)] none] [] =
      .ok ⟨false, ["Must be at least 10"]⟩
  ∧ validateField (.str "15") [.obj "min" [.num (.fin 10)] none] [] = .ok ⟨true, []⟩ := by
  refine ⟨?_, ?_, ?_, ?_, rfl, rfl⟩
  · obtain ⟨b, hb⟩ : ∃ b, (if ps.length > 0 then applyEntryParams (.factory minRule) ps v fd
        else applyEntryDirect (.factory minRule) v fd) = .ok b := by
      cases ps with
      | nil => exact ⟨true, rfl⟩
      | cons p0 ps0 =>
        refine ⟨minRulePasses (p0 :: ps0) v, ?_⟩
        have hlen : (p0 :: ps0).length > 0 := by simp
        rw [if_pos hlen]
        rfl
    have hr : runRule v fd (.obj "min" ps m) = .ok (b, resolveMessage "min" ps m) := by
      simp only [runRule, show rulesReg "min" = some (.factory minRule) from rfl, hb]
    exact ⟨_, validateField_single v fd _ _ _ hr⟩
  · obtain ⟨b, hb⟩ : ∃ b, (if ps.length > 0 then applyEntryParams (.factory maxRule) ps v fd
        else applyEntryDirect (.factory maxRule) v fd) = .ok b := by
      cases ps with
      | nil => exact ⟨true, rfl⟩
      | cons p0 ps0 =>
        refine ⟨maxRulePasses (p0 :: ps0) v, ?_⟩
        have hlen : (p0 :: ps0).length > 0 := by simp
        rw [if_pos hlen]
        rfl
    have hr : runRule v fd (.obj "max" ps m) = .ok (b, resolveMessage "max" ps m) := by
      simp only [runRule, show rulesReg "max" = some (.factory maxRule) from rfl, hb]
    exact ⟨_, validateField_single v fd _ _ _ hr⟩
  · have hb : minRule [p] (.str s) fd = .ok false := by
      simp [minRule, minRulePasses, jsNumber, hn]
    have hr : runRule (.str s) fd (.obj "min" [p] none) =
        .ok (false, resolveMessage "min" [p] none) := by
      simp only [runRule, show rulesReg "min" = some (.factory minRule) from rfl]
      simp [applyEntryParams, hb]
    simpa using validateField_single _ _ _ _ _ hr
  · have hb : maxRule [p] (.str s) fd = .ok false := by
      simp [maxRule, maxRulePasses, jsNumber, hn]
    have hr : runRule (.str s) fd (.obj "max" [p] none) =
        .ok (false, resolveMessage "max" [p] none) := by
      simp only [runRule, show rulesReg "max" = some (.factory maxRule) from rfl]
      simp [applyEntryParams, hb]
    simpa using validateField_single _ _ _ _ _ hr

/-- C7 witness: instantiated with the non-numeric value `"abc"`. -/
theorem c7_min_max_witness :
    validateField (.str "abc") [.obj "min" [.num (.fin 10)] none] [] =
      .ok ⟨false, [resolveMessage "min" [.num (.fin 10)] none]⟩
  ∧ validateField (.str "5") [.obj "min" [.num (.fin 10)] none] [] =
      .ok ⟨false, ["Must be at least 10"]⟩
  ∧ validateField (.str "15") [.obj "min" [.num (.fin 10)] none] [] = .ok ⟨true, []⟩ := by
  have h := c7_min_max_numeric_coercion (.str "x") [] [] none "abc" (.num (.fin 10)) (by decide)
  exact ⟨h.2.2.1, h.2.2.2.2.1, h.2.2.2.2.2⟩

/-- C1 (amended). A RuleSpec declared as a name-with-parameters object whose
    rule name is absent from the registry is silently inert: it never
    matches, never contributes an error and never throws, anywhere in a rule
    list. A RuleSpec declared as a bare string token with an absent name is
    not inert: evaluating it throws a `TypeError` (`this.rules[rule]` is
    `undefined` and is called). -/
theorem c1_unknown_rule_dichotomy (v : JSValue) (fd : Snapshot) (name : String)
    (ps : List JSParam) (m : Option String) (h : rulesReg name = none) :
    validateField v [.obj name ps m] fd = .ok ⟨true, []⟩
  ∧ (∀ pre post : List RuleSpec,
      validateField v (pre ++ .obj name ps m :: post) fd = validateField v (pre ++ post) fd)
  ∧ validateField v [.str name] fd = .error () := by
  have hobj : runRule v fd (.obj name ps m) = .ok (true, "") := by
    simp [runRule, h]
  refine ⟨?_, ?_, ?_⟩
  · simp [validateField, validateFieldGo, hobj]
  · intro pre post
    unfold validateField
    rw [validateFieldGo_append v fd pre (.obj name ps m :: post) [],
      validateFieldGo_append v fd pre post []]
    cases hpre : validateFieldGo v fd pre [] with
    | error u => rfl
    | ok acc => simp [validateFieldGo, hobj]
  · simp [validateField, validateFieldGo, runRule, h]

/-- C1 counterexample: contrary to the claim, a bare string token with an
    unknown rule name does raise — `validateField` throws a `TypeError`
    (modelled as `Except.error ()`) instead of being silently inert. -/
theorem c1_unknown_rule_counterexample :
    validateField (.str "x") [.str "bogus"] [] = .error () := rfl

/-- C1 witness: the object form with the unknown name `"bogus"` is inert. -/
theorem c1_unknown_rule_witness :
    validateField (.str "x") [.obj "bogus" [.num (.fin 1)] none] [] = .ok ⟨true, []⟩
  ∧ validateField (.str "x") [.str "required", .obj "bogus" [.num (.fin 1)] none] [] =
      validateField (.str "x") [.str "required"] [] := by
  have h := c1_unknown_rule_dichotomy (.str "x") [] "bogus" [.num (.fin 1)] none rfl
  exact ⟨h.1, h.2.1 [.str "required"] []⟩

lemma runRule_map_fst (v : JSValue) (fd : Snapshot) (r : RuleSpec) :
    (runRule v fd r).map Prod.fst = rulePasses v fd r := by
  cases r with
  | str name =>
    simp only [runRule, rulePasses]
    cases hreg : rulesReg name with
    | none => rfl
    | some e =>
      dsimp only
      cases hae : applyEntryDirect e v fd with
      | error u => rfl
      | ok b => rfl
  | obj name ps m =>
    simp only [runRule, rulePasses]
    cases hreg : rulesReg name with
    | none => rfl
    | some e =>
      dsimp only
      cases hae : (if ps.length > 0 then applyEntryParams e ps v fd
          else applyEntryDirect e v fd) with
      | error u => rfl
      | ok b => rfl

lemma runRule_fail_msg (v : JSValue) (fd : Snapshot) (r : RuleSpec) (m : String)
    (h : runRule v fd r = .ok (false, m)) : m = resolvedMessage r := by
  cases r with
  | str name =>
    unfold runRule at h
    dsimp only at h
    cases hreg : rulesReg name with
    | none => rw [hreg] at h; simp at h
    | some e =>
      rw [hreg] at h
      dsimp only at h
      cases hae : applyEntryDirect e v fd with
      | error u => rw [hae] at h; simp at h
      | ok b =>
        rw [hae] at h
        simp only [Except.ok.injEq, Prod.mk.injEq] at h
        simp [resolvedMessage, h.2]
  | obj name ps mm =>
    unfold runRule at h
    dsimp only at h
    cases hreg : rulesReg name with
    | none => rw [hreg] at h; simp at h
    | some e =>
      rw [hreg] at h
      dsimp only at h
      cases hae : (if ps.length > 0 then applyEntryParams e ps v fd
          else applyEntryDirect e v fd) with
      | error u => rw [hae] at h; simp at h
      | ok b =>
        rw [hae] at h
        simp only [Except.ok.injEq, Prod.mk.injEq] at h
        simp [resolvedMessage, h.2]

lemma validateFieldGo_spec (v : JSValue) (fd : Snapshot) (rs : List RuleSpec) :
    ∀ acc, validateFieldGo v fd rs acc =
      match ruleOutcomes v fd rs with
      | .error u => .error u
      | .ok outs => .ok (acc ++ outs.reduceOption) := by
  induction rs with
  | nil => intro acc; simp [validateFieldGo, ruleOutcomes]
  | cons r rest ih =>
    intro acc
    cases hr : runRule v fd r with
    | error u =>
      have hp : rulePasses v fd r = .error u := by
        have hmap := runRule_map_fst v fd r
        rw [hr] at hmap
        exact hmap.symm
      simp [validateFieldGo, ruleOutcomes, hr, hp, Except.map]
    | ok p =>
      obtain ⟨b, m⟩ := p
      have hp : rulePasses v fd r = .ok b := by
        have hmap := runRule_map_fst v fd r
        rw [hr] at hmap
        exact hmap.symm
      cases b with
      | true =>
        have hlhs : validateFieldGo v fd (r :: rest) acc = validateFieldGo v fd rest acc := by
          simp [validateFieldGo, hr]
        have hout : ruleOutcomes v fd (r :: rest) =
            match ruleOutcomes v fd rest with
            | .error u => .error u
            | .ok os => .ok (none :: os) := by
          simp [ruleOutcomes, hp, Except.map]
        rw [hlhs, ih acc, hout]
        cases ho : ruleOutcomes v fd rest <;> simp
      | false =>
        have hm : m = resolvedMessage r := runRule_fail_msg v fd r m hr
        have hlhs : validateFieldGo v fd (r :: rest) acc =
            validateFieldGo v fd rest (acc ++ [m]) := by
          simp [validateFieldGo, hr]
        have hout : ruleOutcomes v fd (r :: rest) =
            match ruleOutcomes v fd rest with
            | .error u => .error u
            | .ok os => .ok (some (resolvedMessage r) :: os) := by
          simp [ruleOutcomes, hp, Except.map]
        rw [hlhs, ih (acc ++ [m]), hout]
        cases ho : ruleOutcomes v fd rest with
        | error u => simp
        | ok os => simp [hm]

/-- C4 (amended). Whenever `validateField` returns (no rule evaluation
    throws), it has run the rules in declared order and collected one
    resolved message per failing rule — the override message when the
    RuleSpec carries a non-empty one (an empty override is falsy and falls
    back to the registry message), else the registry message, applying a
    parametric message function to the rule's parameters — and `isValid`
    equals `errors.length === 0`: it agrees with the declarative
    `validateFieldSpec` on every input. -/
theorem c4_validateField_declarative (v : JSValue) (rs : List RuleSpec) (fd : Snapshot) :
    validateField v rs fd = validateFieldSpec v rs fd
  ∧ (∀ res, validateField v rs fd = .ok res → res.isValid = (res.errors.length == 0))
  ∧ validateField (.str "") [.obj "required" [] (some "custom")] [] = .ok ⟨false, ["custom"]⟩
  ∧ validateField (.str "abc") [.obj "minLength" [.num (.fin 5)] none] [] =
      .ok ⟨false, ["Must be at least 5 characters"]⟩ := by
  refine ⟨?_, ?_, rfl, rfl⟩
  · unfold validateField validateFieldSpec
    rw [validateFieldGo_spec v fd rs []]
    cases ho : ruleOutcomes v fd rs <;> simp
  · intro res h
    unfold validateField at h
    cases hgo : validateFieldGo v fd rs [] with
    | error u => rw [hgo] at h; simp at h
    | ok errs =>
      rw [hgo] at h
      simp only [Except.ok.injEq] at h
      rw [← h]

/-- C4 counterexample: as stated the claim is false — a bare-string unknown
    rule makes `validateField` throw instead of producing a result, and an
    empty override message is not used (the registry message is). -/
theorem c4_validateField_counterexample :
    validateField (.str "x") [.str "nope"] [] = .error ()
  ∧ validateField (.str "") [.obj "required" [] (some "")] [] =
      .ok ⟨false, ["This field is required"]⟩ := ⟨rfl, rfl⟩

/-- C4 witness: the amended claim applied to a concrete failing field. -/
theorem c4_validateField_witness :
    validateField (.str "") [.str "required"] [] = validateFieldSpec (.str "") [.str "required"] []
  ∧ (FieldResult.mk false ["This field is required"]).isValid =
      ((FieldResult.mk false ["This field is required"]).errors.length == 0) := by
  have h := c4_validateField_declarative (.str "") [.str "required"] []
  exact ⟨h.1, h.2.1 ⟨false, ["This field is required"]⟩ rfl⟩

lemma validateFormGo_spec (fd : Snapshot) (rm : List (String × List RuleSpec)) :
    ∀ (isV : Bool) (errs : List (String × List String)) (ress : List (String × FieldResult))
      (r : FormResult), validateFormGo fd rm isV errs ress = .ok r →
      ∃ nres : List (String × FieldResult),
        r.results = ress ++ nres ∧
        List.Forall₂ (fun (e : String × List RuleSpec) (p : String × FieldResult) =>
          p.1 = e.1 ∧ validateField (jsOrEmpty (snapGet fd e.1)) e.2 fd = .ok p.2) rm nres ∧
        r.errors = errs ++ nres.filterMap
          (fun p => if p.2.isValid then none else some (p.1, p.2.errors)) ∧
        r.isValid = (isV && nres.all (fun p => p.2.isValid)) := by
  induction rm with
  | nil =>
    intro isV errs ress r h
    simp only [validateFormGo, Except.ok.injEq] at h
    refine ⟨[], ?_, List.Forall₂.nil, ?_, ?_⟩ <;> simp [← h]
  | cons e rest ih =>
    obtain ⟨k, krs⟩ := e
    intro isV errs ress r h
    unfold validateFormGo at h
    cases hvf : validateField (jsOrEmpty (snapGet fd k)) krs fd with
    | error u => rw [hvf] at h; simp at h
    | ok res =>
      rw [hvf] at h
      dsimp only at h
      cases hres : res.isValid with
      | true =>
        rw [hres] at h
        simp only [Bool.not_true, Bool.false_eq_true, if_false] at h
        obtain ⟨nres, h1, h2, h3, h4⟩ := ih isV errs (ress ++ [(k, res)]) r h
        refine ⟨(k, res) :: nres, ?_, List.Forall₂.cons ⟨rfl, hvf⟩ h2, ?_, ?_⟩
        · rw [h1]; simp
        · rw [h3]; simp [hres]
        · rw [h4]; simp [hres]
      | false =>
        rw [hres] at h
        simp only [Bool.not_false, if_true] at h
        obtain ⟨nres, h1, h2, h3, h4⟩ := ih false (errs ++ [(k, res.errors)]) (ress ++ [(k, res)]) r h
        refine ⟨(k, res) :: nres, ?_, List.Forall₂.cons ⟨rfl, hvf⟩ h2, ?_, ?_⟩
        · rw [h1]; simp
        · rw [h3]; simp [hres]
        · rw [h4]; simp [hres]

lemma forall2_results_key_map {fd : Snapshot} :
    ∀ {rm : List (String × List RuleSpec)} {nres : List (String × FieldResult)},
      List.Forall₂ (fun (e : String × List RuleSpec) (p : String × FieldResult) =>
        p.1 = e.1 ∧ validateField (jsOrEmpty (snapGet fd e.1)) e.2 fd = .ok p.2) rm nres →
      nres.map Prod.fst = rm.map Prod.fst := by
  intro rm nres h
  induction h with
  | nil => rfl
  | cons hab hrest ihh => simp [hab.1, ihh]

/-- C5. Whenever `validateForm` returns, it has iterated exactly the field
    names of the rules map in order (snapshot fields with no declared rules
    are ignored), delegated each field to `validateField` with the snapshot
    value defaulted to the empty string when missing (or otherwise falsy),
    returned `isValid` as the conjunction of the per-field results, and an
    error map containing exactly the fields with at least one error. -/
theorem c5_validateForm_aggregation (fd : Snapshot) (rm : List (String × List RuleSpec))
    (r : FormResult) (h : validateForm fd rm = .ok r) :
    r.results.map Prod.fst = rm.map Prod.fst
  ∧ List.Forall₂ (fun (e : String × List RuleSpec) (p : String × FieldResult) =>
      p.1 = e.1 ∧ validateField (jsOrEmpty (snapGet fd e.1)) e.2 fd = .ok p.2) rm r.results
  ∧ r.isValid = r.results.all (fun p => p.2.isValid)
  ∧ r.errors = r.results.filterMap
      (fun p => if p.2.isValid then none else some (p.1, p.2.errors)) := by
  obtain ⟨nres, h1, h2, h3, h4⟩ := validateFormGo_spec fd rm true [] [] r h
  have hres : r.results = nres := by simpa using h1
  refine ⟨?_, ?_, ?_, ?_⟩
  · rw [hres]; exact forall2_results_key_map h2
  · rw [hres]; exact h2
  · rw [hres, h4]; simp
  · rw [hres, h3]; simp

/-- C5 witness: the example from the specification —
    `{email: "bad", name: "ok"}` against `{email: [required, email],
    name: [required]}` is invalid overall and only `email` carries errors. -/
theorem c5_validateForm_witness :
    validateForm [("email", .str "bad"), ("name", .str "ok")]
        [("email", [.str "required", .str "email"]), ("name", [.str "required"])] =
      .ok ⟨false, [("email", ["Please enter a valid email address"])],
        [("email", ⟨false, ["Please enter a valid email address"]⟩), ("name", ⟨true, []⟩)]⟩
  ∧ (false : Bool) =
      ([("email", FieldResult.mk false ["Please enter a valid email address"]),
        ("name", FieldResult.mk true [])].all (fun p => p.2.isValid)) := by
  constructor
  · rfl
  · exact (c5_validateForm_aggregation
      [("email", .str "bad"), ("name", .str "ok")]
      [("email", [.str "required", .str "email"]), ("name", [.str "required"])]
      ⟨false, [("email", ["Please enter a valid email address"])],
        [("email", ⟨false, ["Please enter a valid email address"]⟩), ("name", ⟨true, []⟩)]⟩
      rfl).2.2.1

lemma setSubmitState_roundtrip (b : Option ButtonState) :
    buttonRestored b (setSubmitState (setSubmitState b true) false) := by
  cases b with
  | none => simp [setSubmitState, buttonRestored]
  | some btn =>
    simp only [setSubmitState, buttonRestored]
    refine ⟨_, rfl, rfl, rfl, ?_⟩
    intro ht
    simp [ht]

/-- C2 (amended). For every submit invocation starting outside the
    Submitting state, `isSubmitting` is `false` again when the invocation
    completes, on all three exit paths (validation rejected, success, error
    thrown during the success path); on the latter two paths the submit
    affordance is re-enabled, its busy styling removed, and its label text
    restored provided the pre-submission label was non-empty (an empty label
    is left as the placeholder, because the restore is guarded by the
    truthiness of `dataset.originalText`). -/
theorem c2_submit_state_restored (fuel : Nat) (s : FormCtrl) (valid throws reenter : Bool)
    (h : s.isSubmitting = false) :
    (handleSubmit (fuel + 1) s valid throws reenter).state.isSubmitting = false
  ∧ (valid = false → handleSubmit (fuel + 1) s valid throws reenter = ⟨s, 1, 0, 0⟩)
  ∧ (valid = true →
      buttonRestored s.button (handleSubmit (fuel + 1) s valid throws reenter).state.button) := by
  cases valid with
  | false =>
    have hrun : handleSubmit (fuel + 1) s false throws reenter = ⟨s, 1, 0, 0⟩ := by
      simp [handleSubmit, h]
    exact ⟨by rw [hrun]; exact h, fun _ => hrun, fun hv => Bool.noConfusion hv⟩
  | true =>
    cases throws with
    | true =>
      have hrun : handleSubmit (fuel + 1) s true true reenter =
          ⟨⟨false, setSubmitState (setSubmitState s.button true) false⟩, 1, 0, 1⟩ := by
        simp [handleSubmit, h]
      exact ⟨by rw [hrun], fun hv => Bool.noConfusion hv,
        fun _ => by rw [hrun]; exact setSubmitState_roundtrip s.button⟩
    | false =>
      cases reenter with
      | false =>
        have hrun : handleSubmit (fuel + 1) s true false false =
            ⟨⟨false, setSubmitState (setSubmitState s.button true) false⟩, 1, 1, 0⟩ := by
          simp [handleSubmit, h]
        exact ⟨by rw [hrun], fun hv => Bool.noConfusion hv,
          fun _ => by rw [hrun]; exact setSubmitState_roundtrip s.button⟩
      | true =>
        have hnested : handleSubmit fuel ⟨true, setSubmitState s.button true⟩ true false true =
            ⟨⟨true, setSubmitState s.button true⟩, 0, 0, 0⟩ :=
          handleSubmit_of_submitting fuel _ true false true rfl
        have hrun : handleSubmit (fuel + 1) s true false true =
            ⟨⟨false, setSubmitState (setSubmitState s.button true) false⟩, 1, 1, 0⟩ := by
          simp [handleSubmit, h, hnested]
        exact ⟨by rw [hrun], fun hv => Bool.noConfusion hv,
          fun _ => by rw [hrun]; exact setSubmitState_roundtrip s.button⟩

/-- C2 counterexample: a submit button whose pre-submission label is the
    empty string is not restored — after a successful submission its label
    remains the "Submitting..." placeholder, because `dataset.originalText`
    holds the empty string, which is falsy. -/
theorem c2_submit_state_counterexample :
    (handleSubmit 1 ⟨false, some ⟨false, "", none, false⟩⟩ true false false).state.button =
      some ⟨false, "Submitting...", some "", false⟩
  ∧ ("Submitting..." : String) ≠ "" := ⟨rfl, by decide⟩

/-- C2 witness: a concrete successful submission with label "Send". -/
theorem c2_submit_state_witness :
    (handleSubmit 1 ⟨false, some ⟨false, "Send", none, false⟩⟩ true false false).state.isSubmitting
      = false
  ∧ buttonRestored (some ⟨false, "Send", none, false⟩)
      (handleSubmit 1 ⟨false, some ⟨false, "Send", none, false⟩⟩ true false false).state.button := by
  have h := c2_submit_state_restored 0 ⟨false, some ⟨false, "Send", none, false⟩⟩ true false false rfl
  exact ⟨h.1, h.2.2 rfl⟩

/-- C3. A submit event received while `isSubmitting = true` is a complete
    no-op: no validation run, no emission, no state change. Consequently two
    submit attempts in rapid succession — the second arriving re-entrantly
    while the first is still Submitting — produce exactly one `form:submit`
    emission and one validation run. -/
theorem c3_reentrant_submit_noop (fuel : Nat) (s s0 : FormCtrl) (valid throws reenter : Bool)
    (h : s.isSubmitting = true) (h0 : s0.isSubmitting = false) :
    handleSubmit (fuel + 1) s valid throws reenter = ⟨s, 0, 0, 0⟩
  ∧ (handleSubmit (fuel + 1) s0 true false true).submitEmits = 1
  ∧ (handleSubmit (fuel + 1) s0 true false true).validations = 1 := by
  have hnested : handleSubmit fuel ⟨true, setSubmitState s0.button true⟩ true false true =
      ⟨⟨true, setSubmitState s0.button true⟩, 0, 0, 0⟩ :=
    handleSubmit_of_submitting fuel _ true false true rfl
  refine ⟨handleSubmit_of_submitting _ _ _ _ _ h, ?_, ?_⟩ <;>
    simp [handleSubmit, h0, hnested]

/-- C3 witness: a Submitting-state controller ignores the event; an Idle
    controller with a re-entrant listener emits exactly once. -/
theorem c3_reentrant_witness :
    handleSubmit 3 ⟨true, none⟩ true false true = ⟨⟨true, none⟩, 0, 0, 0⟩
  ∧ (handleSubmit 3 ⟨false, none⟩ true false true).submitEmits = 1 := by
  have h := c3_reentrant_submit_noop 2 ⟨true, none⟩ ⟨false, none⟩ true false true rfl rfl
  exact ⟨h.1, h.2.1⟩
